import Mathlib

/-!
Verification of the gentro-os metadata-resolution pipeline and
emulator/launch resolution engine.

The Go sources are shallowly embedded:
- `services/games/models/models.go` provides the data model (fields not used
  by the verified operations, such as timestamps, are omitted);
- `services/games/emulator/service.go` (the revision that availability-checks
  the instance override, `ResolveEmulator`, and the command builder);
- `services/games/metadata/fetcher.go` (queue, worker chain, cancellation);
- `services/games/games.go` (`monitorGameProcess`).

The database package is not part of the sources; its queries are modelled
from the specification and are marked `Modelled from the spec:` below.
-/

namespace Gentro

/-! ## Data model (services/games/models/models.go) -/

/-- How an emulator is installed (`models.EmulatorType`). -/
inductive EmulatorType where
  | flatpak
  | native
  | appimage
deriving DecidableEq, Repr

/-- An emulator configuration (`models.Emulator`; timestamps omitted). -/
structure Emulator where
  id : String
  name : String
  displayName : String
  type_ : EmulatorType
  executablePath : String
  flatpakID : String
  commandTemplate : String
  defaultArgs : String
  supportedPlatforms : List String
  isAvailable : Bool
deriving DecidableEq, Repr

/-- A RetroArch core (`models.EmulatorCore`). -/
structure EmulatorCore where
  id : String
  emulatorID : String
  coreID : String
  displayName : String
  supportedPlatforms : List String
  isAvailable : Bool
deriving DecidableEq, Repr

/-- Platform-to-emulator mapping (`models.PlatformEmulator`; the priority
field appears in the seeded mappings and orders the fallback list). -/
structure PlatformEmulator where
  id : String
  platform : String
  emulatorID : String
  coreID : String
  isDefault : Bool
  priority : Nat
deriving DecidableEq, Repr

/-- Per-instance emulator override (`models.InstanceEmulatorSettings`). -/
structure InstanceEmulatorSettings where
  instanceID : String
  emulatorID : String
  coreID : String
  customArgs : String
deriving DecidableEq, Repr

/-- A concrete installed copy of a game (`models.GameInstance`; only the
fields read by the verified operations are modelled). -/
structure GameInstance where
  id : String
  gameID : String
  source : String
  platform : String
  installPath : String
deriving DecidableEq, Repr

/-- A metadata fetch request (`models.FetchRequest`). -/
structure FetchRequest where
  gameID : String
  instanceID : String
  priority : Int
  platforms : List String
  name : String
  fileHash : String
  source : String
  platform : String
deriving DecidableEq, Repr

/-- Game-level metadata from external sources (`models.GameMetadata`;
the release-date pointer is omitted). -/
structure GameMetadata where
  name : String
  description : String
  developer : String
  publisher : String
  genres : List String
deriving DecidableEq, Repr

/-- Metadata produced by a resolver (`models.ResolvedMetadata`; the
per-platform map is modelled as an association list). -/
structure ResolvedMetadata where
  gameMetadata : GameMetadata
  artURLs : List (String × String)
deriving DecidableEq, Repr

/-! ## Command builder (services/games/emulator/service.go) -/

/-- One hexadecimal digit, lower case, as written by Go's `strconv.Quote`. -/
def hexDigit (n : Nat) : Char :=
  if n < 10 then Char.ofNat (48 + n) else Char.ofNat (97 + (n - 10))

/-- Model of how Go's `%q` verb (`strconv.Quote`) renders a single rune:
`"` and `\` get a backslash, the standard control characters get their
mnemonic escapes, other ASCII control bytes get `\xHH`, printable runes are
kept as they are. -/
def goQuoteChar (c : Char) : List Char :=
  if c == '"' then ['\\', '"']
  else if c == '\\' then ['\\', '\\']
  else if c.toNat == 7 then ['\\', 'a']
  else if c.toNat == 8 then ['\\', 'b']
  else if c.toNat == 12 then ['\\', 'f']
  else if c.toNat == 10 then ['\\', 'n']
  else if c.toNat == 13 then ['\\', 'r']
  else if c.toNat == 9 then ['\\', 't']
  else if c.toNat == 11 then ['\\', 'v']
  else if 32 ≤ c.toNat && c.toNat < 127 then [c]
  else if c.toNat < 32 || c.toNat == 127 then
    ['\\', 'x', hexDigit (c.toNat / 16 % 16), hexDigit (c.toNat % 16)]
  else [c]

/-- Model of Go's `fmt.Sprintf("%q", s)`: the escaped characters wrapped in
double quotes. -/
def goQuote (s : String) : String :=
  String.mk ('"' :: (s.data.flatMap goQuoteChar) ++ ['"'])

/-- Model of Go's `strings.Contains(path, " ")`: a one-character pattern
occurs exactly when the character occurs. -/
def containsSpace (path : String) : Bool :=
  path.data.contains ' '

/-- Source `quotePathIfNeeded`: wrap a path in `%q` quotes if it contains a
space. -/
def quotePathIfNeeded (path : String) : String :=
  if containsSpace path then goQuote path else path

/-- Worker for `replaceAll` with a non-empty pattern `p :: ps`: replace each
leftmost, non-overlapping occurrence; the replacement is spliced in without
being rescanned, as in Go. The fuel argument only makes the recursion
structural; every step consumes at least one character, so fuel equal to
the input length never runs out. -/
def replaceAllFuel (p : Char) (ps rep : List Char) : Nat → List Char → List Char
  | _, [] => []
  | 0, l => l
  | fuel + 1, c :: rest =>
    if (p :: ps).isPrefixOf (c :: rest) then
      rep ++ replaceAllFuel p ps rep fuel (rest.drop ps.length)
    else
      c :: replaceAllFuel p ps rep fuel rest

/-- Model of Go's `strings.ReplaceAll(s, pat, rep)` for the non-empty
patterns used by the command builder. -/
def replaceAll (s pat rep : String) : String :=
  match pat.data with
  | [] => s
  | p :: ps => String.mk (replaceAllFuel p ps rep.data s.data.length s.data)

/-- Source `parseCommandWithQuotes` loop: the current argument accumulates
until an unquoted space; a quote character toggles the quoting state when it
matches the opening quote and is kept literally otherwise; quote characters
are stripped. `qc` is Go's `quoteChar` (`rune(0)` when outside quotes). -/
def parseCmdAux : List Char → List String → List Char → Bool → Char → List String
  | [], args, cur, _inQuote, _qc =>
    if cur.length > 0 then args ++ [String.mk cur] else args
  | r :: rest, args, cur, inQuote, qc =>
    if r == '"' || r == '\'' then
      if !inQuote then
        parseCmdAux rest args cur true r
      else if r == qc then
        parseCmdAux rest args cur false (Char.ofNat 0)
      else
        parseCmdAux rest args (cur ++ [r]) inQuote qc
    else if r == ' ' && !inQuote then
      if cur.length > 0 then
        parseCmdAux rest (args ++ [String.mk cur]) [] inQuote qc
      else
        parseCmdAux rest args [] inQuote qc
    else
      parseCmdAux rest args (cur ++ [r]) inQuote qc

/-- Source `parseCommandWithQuotes`: tokenize a command string honoring
single- and double-quoted spans. -/
def parseCommandWithQuotes (cmd : String) : List String :=
  parseCmdAux cmd.data [] [] false (Char.ofNat 0)

/-- Source `Service.buildFlatpakCommand`: quote the paths, substitute the
named placeholders in the command template, then tokenize. -/
def buildFlatpakCommand (emulator : Emulator) (coreLibPath romPath args : String) :
    List String :=
  let quotedRomPath := quotePathIfNeeded romPath
  let quotedCorePath := quotePathIfNeeded coreLibPath
  let cmd := emulator.commandTemplate
  let cmd := replaceAll cmd "{flatpak_id}" emulator.flatpakID
  let cmd := replaceAll cmd "{core_lib_path}" quotedCorePath
  let cmd := replaceAll cmd "{args}" args
  let cmd := replaceAll cmd "{rom}" quotedRomPath
  parseCommandWithQuotes cmd

/-! ## Activity-based process monitor (services/games/games.go) -/

/-- Launch transition emitted by the monitor. -/
inductive MonitorEvent where
  | running
  | stopped
deriving DecidableEq, Repr

/-- Source `GamesService.monitorGameProcess` loop, one entry of `probes` per
one-second tick: `none` is a probe error (the loop `continue`s), `some b`
says whether a process in the install path was detected. `t` is the tick
time in seconds, `hasBeen` is `hasBeenRunning`, `lastSeen` the tick of
`lastSeenRunning`. Events are returned with the tick at which they fire;
the stop threshold is ten seconds. -/
def monitorAux : List (Option Bool) → Nat → Bool → Nat → List (Nat × MonitorEvent)
  | [], _, _, _ => []
  | probe :: rest, t, hasBeen, lastSeen =>
    match probe with
    | none => monitorAux rest (t + 1) hasBeen lastSeen
    | some true =>
      if hasBeen then
        monitorAux rest (t + 1) true t
      else
        (t, MonitorEvent.running) :: monitorAux rest (t + 1) true t
    | some false =>
      if hasBeen && decide (10 < t - lastSeen) then
        [(t, MonitorEvent.stopped)]
      else
        monitorAux rest (t + 1) hasBeen lastSeen

/-- Source `GamesService.monitorGameProcess` on a finite detection trace:
first tick fires at one second; initially not yet seen running. -/
def monitorGameProcess (probes : List (Option Bool)) : List (Nat × MonitorEvent) :=
  monitorAux probes 1 false 0

/-! ## Emulator resolution (services/games/emulator/service.go, the revision
with availability-checked overrides and fallback)

The database package is not part of the sources; its state is modelled as
lists and its queries are modelled from the specification. -/

/-- Modelled from the spec: the persistence collaborator's tables read by
emulator resolution (emulators, cores, platform mappings, instance
overrides). -/
structure DB where
  emulators : List Emulator
  cores : List EmulatorCore
  platformEmulators : List PlatformEmulator
  instanceSettings : List InstanceEmulatorSettings
deriving Repr

/-- Modelled from the spec: `db.GetInstanceEmulatorSettings` — the optional
per-instance override. -/
def getInstanceEmulatorSettings (db : DB) (instanceID : String) :
    Option InstanceEmulatorSettings :=
  db.instanceSettings.find? (fun s => s.instanceID == instanceID)

/-- Modelled from the spec: `db.GetEmulator` — look up an emulator by id. -/
def getEmulator (db : DB) (emulatorID : String) : Option Emulator :=
  db.emulators.find? (fun e => e.id == emulatorID)

/-- Modelled from the spec: `db.GetCore` — look up a core of an emulator. -/
def getCore (db : DB) (emulatorID coreID : String) : Option EmulatorCore :=
  db.cores.find? (fun c => c.emulatorID == emulatorID && c.coreID == coreID)

/-- Source `Service.getEmulatorAndCore`: the emulator must exist; a core is
attached when a core id is given and the core is found, and is silently
dropped otherwise. -/
def getEmulatorAndCore (db : DB) (emulatorID coreID : String) :
    Except String (Emulator × Option EmulatorCore) :=
  match getEmulator db emulatorID with
  | none => Except.error ("emulator not found: " ++ emulatorID)
  | some emulator =>
    let core := if coreID == "" then none else getCore db emulatorID coreID
    Except.ok (emulator, core)

/-- Insert a mapping into a priority-sorted list, after all mappings of
lower-or-equal priority (stable for ties). -/
def insertByPriority (pe : PlatformEmulator) :
    List PlatformEmulator → List PlatformEmulator
  | [] => [pe]
  | q :: rest =>
    if pe.priority < q.priority then pe :: q :: rest
    else q :: insertByPriority pe rest

/-- Stable insertion sort by the configured priority (ties keep insertion
order). -/
def sortByPriority : List PlatformEmulator → List PlatformEmulator
  | [] => []
  | pe :: rest => insertByPriority pe (sortByPriority rest)

/-- Modelled from the spec: availability of one platform mapping — the
emulator must exist and be available and, when a core is referenced, the
core must exist and be available; returns the (emulator, optional core)
pair in that case. -/
def mappingAvailablePair (db : DB) (pe : PlatformEmulator) :
    Option (Emulator × Option EmulatorCore) :=
  match getEmulator db pe.emulatorID with
  | none => none
  | some emu =>
    if emu.isAvailable then
      if pe.coreID == "" then some (emu, none)
      else
        match getCore db pe.emulatorID pe.coreID with
        | some c => if c.isAvailable then some (emu, some c) else none
        | none => none
    else none

/-- Modelled from the spec: `db.GetDefaultEmulatorForPlatform(platform,
requireAvailable)` — the mapping marked default for the platform; with the
"available only" constraint it is returned only when the emulator and, when
applicable, its core are marked available. -/
def getDefaultEmulatorForPlatform (db : DB) (platform : String)
    (requireAvailable : Bool) : Option (Emulator × Option EmulatorCore) :=
  match db.platformEmulators.find? (fun pe => pe.platform == platform && pe.isDefault) with
  | none => none
  | some pe =>
    if requireAvailable then mappingAvailablePair db pe
    else
      match getEmulator db pe.emulatorID with
      | none => none
      | some emu =>
        some (emu, if pe.coreID == "" then none else getCore db pe.emulatorID pe.coreID)

/-- Modelled from the spec: `db.GetAvailableEmulatorsForPlatform` — all
mappings for the platform in configured priority order (ties broken by
insertion order), keeping only pairs whose emulator (and core, if any) is
available. -/
def getAvailableEmulatorsForPlatform (db : DB) (platform : String) :
    List (Emulator × Option EmulatorCore) :=
  (sortByPriority (db.platformEmulators.filter (fun pe => pe.platform == platform))).filterMap
    (mappingAvailablePair db)

/-- Source `Service.ResolveEmulator`: instance override if its emulator (and
core, when present) is available, otherwise the available platform default,
otherwise the first available fallback pair, otherwise a platform-specific
error. -/
def ResolveEmulator (db : DB) (inst : GameInstance) :
    Except String (Emulator × Option EmulatorCore) :=
  let step2 : Except String (Emulator × Option EmulatorCore) :=
    match getDefaultEmulatorForPlatform db inst.platform true with
    | some pair => Except.ok pair
    | none =>
      match getAvailableEmulatorsForPlatform db inst.platform with
      | pair :: _ => Except.ok pair
      | [] => Except.error ("no available emulator for platform " ++ inst.platform)
  match getInstanceEmulatorSettings db inst.id with
  | none => step2
  | some settings =>
    match getEmulatorAndCore db settings.emulatorID settings.coreID with
    | Except.error _ => step2
    | Except.ok (emu, core) =>
      if emu.isAvailable && (match core with | none => true | some c => c.isAvailable) then
        Except.ok (emu, core)
      else step2

/-- The availability check that `ResolveEmulator` applies to an instance
override before using it, spelled as in the source: the referenced emulator
is found and available and the attached core, when present, is
available. -/
def overrideUsable (db : DB) (settings : InstanceEmulatorSettings) : Bool :=
  match getEmulatorAndCore db settings.emulatorID settings.coreID with
  | Except.error _ => false
  | Except.ok (emu, core) =>
    emu.isAvailable && (match core with | none => true | some c => c.isAvailable)

/-- The override stage does not produce a pair: either no override exists,
or the override's lookup fails, or its availability check fails. -/
def overrideFallsThrough (db : DB) (instanceID : String) : Prop :=
  match getInstanceEmulatorSettings db instanceID with
  | none => True
  | some settings => overrideUsable db settings = false

/-! ## Metadata fetcher (services/games/metadata/fetcher.go) -/

/-- A registered metadata resolver (the `Resolver` interface): a name, a
`Supports` capability gate, and a fallible `Resolve`. -/
structure ResolverM where
  name : String
  supports : String → String → Bool
  resolve : FetchRequest → Except String ResolvedMetadata

/-- Terminal state of one fetch (the chain in `Fetcher.processRequest`). -/
inductive FetchOutcome where
  | cancelled
  | resolved (m : ResolvedMetadata) (resolverName : String)
  | exhausted
deriving Repr

/-- Source `Fetcher.processRequest` resolver loop. `cancelBefore k` models
the `ctx.Done()` check made at the top of iteration `k`; unsupported
resolvers are skipped without being tried; the first successful `Resolve`
short-circuits; the second component collects, in order, exactly the
resolvers whose `Resolve` was invoked (Go's `sourcesTried`). -/
def runChainAux (cancelBefore : Nat → Bool) (req : FetchRequest) :
    Nat → List ResolverM → FetchOutcome × List ResolverM
  | _, [] => (FetchOutcome.exhausted, [])
  | k, r :: rest =>
    if cancelBefore k then (FetchOutcome.cancelled, [])
    else if r.supports req.source req.platform then
      match r.resolve req with
      | Except.error _ =>
        let (outcome, tried) := runChainAux cancelBefore req (k + 1) rest
        (outcome, r :: tried)
      | Except.ok m => (FetchOutcome.resolved m r.name, [r])
    else
      runChainAux cancelBefore req (k + 1) rest

/-- Source fetcher callback delivery: `f.onResolve` fires exactly when the
chain resolved and a callback is set, with the request, the metadata and
the resolver's name. -/
def deliveredCallback (hasCallback : Bool) (outcome : FetchOutcome)
    (req : FetchRequest) : Option (FetchRequest × ResolvedMetadata × String) :=
  match outcome with
  | FetchOutcome.resolved m n => if hasCallback then some (req, m, n) else none
  | _ => none

/-- The fetcher's shared state (`Fetcher` struct): the buffered channel
contents, whether the channel has been closed, the cancellation registry
(`cancelMap`, tokens stand in for `context.CancelFunc`), the running flag
and the registered resolvers. -/
structure FetcherState where
  queue : List FetchRequest
  queueClosed : Bool
  cancelMap : String → Option Nat
  isRunning : Bool
  resolvers : List ResolverM

/-- The queue capacity from `NewFetcher`: `make(chan models.FetchRequest,
100)`. -/
def queueCapacity : Nat := 100

/-- Source `NewFetcher`: empty queue, empty cancellation registry, not
running. -/
def initialFetcher (resolvers : List ResolverM) : FetcherState :=
  { queue := []
    queueClosed := false
    cancelMap := fun _ => none
    isRunning := false
    resolvers := resolvers }

/-- Source `Fetcher.Start`: a no-op when already running, otherwise sets the
running flag (worker goroutines are the environment of this model). -/
def startOp (s : FetcherState) : FetcherState :=
  if s.isRunning then s else { s with isRunning := true }

/-- Source `Fetcher.Stop`: an immediate no-op when not running; otherwise
clears the running flag, cancels and empties the registry, and closes the
queue. The boolean reports whether this call closed the queue channel. -/
def stopOp (s : FetcherState) : FetcherState × Bool :=
  if s.isRunning then
    ({ s with isRunning := false, cancelMap := fun _ => none, queueClosed := true }, true)
  else
    (s, false)

/-- Source `Fetcher.Queue`: `NotRunning` when the running flag is down;
otherwise the bounded send — modelled as succeeding exactly when the
100-slot buffer has room (a worker freeing a slot during the one-second
wait belongs to the concurrent environment) — and `QueueFull` on
timeout. -/
def queueOp (s : FetcherState) (req : FetchRequest) : FetcherState × Option String :=
  if s.isRunning then
    if s.queue.length < queueCapacity then
      ({ s with queue := s.queue ++ [req] }, none)
    else
      (s, some "queue is full")
  else
    (s, some "fetcher is not running")

/-- Source `Fetcher.Cancel`: when a handle is registered for the instance,
invoke it and delete it; otherwise a no-op. -/
def cancelOp (s : FetcherState) (instanceID : String) : FetcherState :=
  match s.cancelMap instanceID with
  | some _ =>
    { s with cancelMap := fun x => if x = instanceID then none else s.cancelMap x }
  | none => s

/-- Source `Fetcher.processRequest` registry insertion: the fresh cancel
handle is stored under the request's instance id. -/
def registerFetch (s : FetcherState) (tok : Nat) (instanceID : String) : FetcherState :=
  { s with cancelMap := fun x => if x = instanceID then some tok else s.cancelMap x }

/-- Source `Fetcher.processRequest` deferred cleanup: the registry entry for
the instance id is deleted on every exit path. -/
def unregisterFetch (s : FetcherState) (instanceID : String) : FetcherState :=
  { s with cancelMap := fun x => if x = instanceID then none else s.cancelMap x }

/-- Source `Fetcher.processRequest`: register the cancel handle, run the
resolver chain, and — via the deferred function, on every terminal
transition — remove the handle again. -/
def processRequest (s : FetcherState) (cancelBefore : Nat → Bool) (tok : Nat)
    (req : FetchRequest) : FetcherState × FetchOutcome × List ResolverM :=
  let s1 := registerFetch s tok req.instanceID
  let (outcome, tried) := runChainAux cancelBefore req 0 s.resolvers
  (unregisterFetch s1 req.instanceID, outcome, tried)

/-- External operations on a fetcher, for reachable-state reasoning:
lifecycle calls, queueing, cancelling, and a worker draining one request. -/
inductive FetchOp where
  | start
  | stop
  | queueReq (req : FetchRequest)
  | cancel (instanceID : String)
  | drain

/-- State transition of one external operation. -/
def applyOp (s : FetcherState) : FetchOp → FetcherState
  | FetchOp.start => startOp s
  | FetchOp.stop => (stopOp s).1
  | FetchOp.queueReq req => (queueOp s req).1
  | FetchOp.cancel instanceID => cancelOp s instanceID
  | FetchOp.drain => { s with queue := s.queue.tail }

/-- The fetcher state after a sequence of external operations, from
`NewFetcher`. -/
def runOps (resolvers : List ResolverM) (ops : List FetchOp) : FetcherState :=
  ops.foldl applyOp (initialFetcher resolvers)

/-- Whether a call issued after `ops` comes between a Start and a Stop: the
last lifecycle operation in `ops` is a start. -/
def runningAfter (ops : List FetchOp) : Bool :=
  ops.foldl
    (fun b op =>
      match op with
      | FetchOp.start => true
      | FetchOp.stop => false
      | _ => b)
    false

/-! ## Lemmas on the fetcher state machine -/

theorem startOp_isRunning (s : FetcherState) : (startOp s).isRunning = true := by
  unfold startOp
  by_cases h : s.isRunning <;> simp [h]

theorem stopOp_isRunning (s : FetcherState) : (stopOp s).1.isRunning = false := by
  unfold stopOp
  by_cases h : s.isRunning <;> simp [h]

theorem queueOp_isRunning (s : FetcherState) (req : FetchRequest) :
    (queueOp s req).1.isRunning = s.isRunning := by
  unfold queueOp
  by_cases h : s.isRunning <;> by_cases h2 : s.queue.length < queueCapacity <;> simp [h, h2]

theorem cancelOp_isRunning (s : FetcherState) (instanceID : String) :
    (cancelOp s instanceID).isRunning = s.isRunning := by
  unfold cancelOp
  cases s.cancelMap instanceID <;> simp

theorem isRunning_foldl (ops : List FetchOp) (s : FetcherState) :
    (ops.foldl applyOp s).isRunning
      = ops.foldl
          (fun b op =>
            match op with
            | FetchOp.start => true
            | FetchOp.stop => false
            | _ => b)
          s.isRunning := by
  induction ops generalizing s with
  | nil => rfl
  | cons op rest ih =>
    cases op <;>
      simp only [List.foldl_cons, applyOp, ih, startOp_isRunning, stopOp_isRunning,
        queueOp_isRunning, cancelOp_isRunning]

theorem runOps_isRunning (resolvers : List ResolverM) (ops : List FetchOp) :
    (runOps resolvers ops).isRunning = runningAfter ops :=
  isRunning_foldl ops (initialFetcher resolvers)

/-! ## Queue and lifecycle claims -/

/-- C5: `Queue(req)` returns the not-running error exactly when it is issued
outside a Start/Stop window; while running it accepts the request whenever
the 100-slot queue has room and returns the queue-full error when the
bounded wait cannot place the request. -/
theorem queue_error_conditions (resolvers : List ResolverM) (ops : List FetchOp)
    (req : FetchRequest) :
    ((queueOp (runOps resolvers ops) req).2 = some "fetcher is not running"
        ↔ runningAfter ops = false)
    ∧ (runningAfter ops = true →
        ((runOps resolvers ops).queue.length < queueCapacity →
          queueOp (runOps resolvers ops) req
            = ({ runOps resolvers ops with queue := (runOps resolvers ops).queue ++ [req] },
                none))
        ∧ (queueCapacity ≤ (runOps resolvers ops).queue.length →
          queueOp (runOps resolvers ops) req = (runOps resolvers ops, some "queue is full"))) := by
  have hrun : (runOps resolvers ops).isRunning = runningAfter ops :=
    runOps_isRunning resolvers ops
  refine ⟨⟨?_, ?_⟩, fun hr => ⟨?_, ?_⟩⟩
  · intro h
    by_contra hne
    have hr : runningAfter ops = true := by
      revert hne
      cases runningAfter ops <;> simp
    unfold queueOp at h
    rw [hrun, hr] at h
    by_cases h2 : (runOps resolvers ops).queue.length < queueCapacity <;> simp [h2] at h
  · intro h
    unfold queueOp
    rw [hrun, h]
    simp
  · intro hlen
    simp [queueOp, hrun, hr, hlen]
  · intro hlen
    simp [queueOp, hrun, hr, Nat.not_lt.mpr hlen]

/-- A resolver that always fails, as a concrete chain element. -/
def rErr : ResolverM :=
  { name := "igdb"
    supports := fun _ _ => true
    resolve := fun _ => Except.error "http 500" }

/-- Concrete resolved metadata for witnesses. -/
def meta0 : ResolvedMetadata :=
  { gameMetadata :=
      { name := "Super Mario Bros.", description := "", developer := "",
        publisher := "", genres := [] }
    artURLs := [] }

/-- A resolver that succeeds, as a concrete chain element. -/
def rOk : ResolverM :=
  { name := "local_cache"
    supports := fun _ _ => true
    resolve := fun _ => Except.ok meta0 }

/-- A resolver registered after the successful one; it must never be
tried. -/
def rNever : ResolverM :=
  { name := "later"
    supports := fun _ _ => true
    resolve := fun _ => Except.ok meta0 }

/-- Concrete fetch request for witnesses. -/
def req0 : FetchRequest :=
  { gameID := "g1", instanceID := "inst1", priority := 0, platforms := ["nes"],
    name := "Super Mario Bros.", fileHash := "", source := "emulated",
    platform := "nes" }

/-- Witness for C5 at the history `[start]`: a queue call right after Start
is accepted. -/
theorem queue_error_conditions_witness :
    queueOp (runOps [rOk] [FetchOp.start]) req0
      = ({ runOps [rOk] [FetchOp.start] with
            queue := (runOps [rOk] [FetchOp.start]).queue ++ [req0] }, none) :=
  ((queue_error_conditions [rOk] [FetchOp.start] req0).2 (by decide)).1 (by decide)

/-- C8: `Stop()` is idempotent — a second Stop returns immediately, does not
close the queue channel again, and leaves the state exactly as the first
Stop left it. -/
theorem stop_idempotent (s : FetcherState) :
    stopOp (stopOp s).1 = ((stopOp s).1, false) := by
  unfold stopOp
  by_cases h : s.isRunning <;> simp [h]

/-- C6: the cancellation registry holds the handle inserted when processing
starts, loses it on every terminal transition of `processRequest` (whatever
the outcome), is untouched at other instance ids, loses the handle on an
explicit Cancel, and Cancel without a registered handle is a no-op. -/
theorem cancelRegistry_terminal_removal (s : FetcherState) (cancelBefore : Nat → Bool)
    (tok : Nat) (req : FetchRequest) (instanceID : String) :
    (registerFetch s tok req.instanceID).cancelMap req.instanceID = some tok
    ∧ (processRequest s cancelBefore tok req).1.cancelMap req.instanceID = none
    ∧ (∀ other, other ≠ req.instanceID →
        (processRequest s cancelBefore tok req).1.cancelMap other = s.cancelMap other)
    ∧ (cancelOp s instanceID).cancelMap instanceID = none
    ∧ (s.cancelMap instanceID = none → cancelOp s instanceID = s) := by
  refine ⟨?_, ?_, ?_, ?_, ?_⟩
  · simp [registerFetch]
  · simp [processRequest, registerFetch, unregisterFetch]
  · intro other hother
    simp [processRequest, registerFetch, unregisterFetch, hother]
  · unfold cancelOp
    cases hm : s.cancelMap instanceID <;> simp [hm]
  · intro h
    unfold cancelOp
    rw [h]

/-- Witness for C6 at a concrete state: after processing `req0` from the
initial state no handle is left for `"inst1"`, other ids are untouched, and
a Cancel with no in-flight fetch is a no-op. -/
theorem cancelRegistry_terminal_removal_witness :
    (processRequest (initialFetcher [rOk]) (fun _ => false) 7 req0).1.cancelMap "inst1" = none
    ∧ (processRequest (initialFetcher [rOk]) (fun _ => false) 7 req0).1.cancelMap "other"
        = (initialFetcher [rOk]).cancelMap "other"
    ∧ cancelOp (initialFetcher [rOk]) "inst9" = initialFetcher [rOk] :=
  ⟨(cancelRegistry_terminal_removal (initialFetcher [rOk]) (fun _ => false) 7 req0 "inst9").2.1,
   (cancelRegistry_terminal_removal (initialFetcher [rOk]) (fun _ => false) 7 req0 "inst9").2.2.1
     "other" (by decide),
   (cancelRegistry_terminal_removal (initialFetcher [rOk]) (fun _ => false) 7 req0 "inst9").2.2.2.2
     rfl⟩

/-! ## Command builder lemmas -/

theorem contains_of_mem (l : List Char) (c : Char) (h : c ∈ l) : l.contains c = true := by
  simpa using h

theorem isPrefixOf_append_self {α : Type} [BEq α] [LawfulBEq α] (xs l : List α) :
    xs.isPrefixOf (xs ++ l) = true := by
  induction xs with
  | nil => simp [List.isPrefixOf]
  | cons x xs ih => simp [List.isPrefixOf, ih]

/-- Replacement walks over a prefix free of the pattern's head character,
consuming one unit of fuel per character. -/
theorem replaceAllFuel_not_head (p : Char) (ps rep : List Char) :
    ∀ (pre l : List Char) (n : Nat), p ∉ pre →
      replaceAllFuel p ps rep (pre.length + n) (pre ++ l)
        = pre ++ replaceAllFuel p ps rep n l := by
  intro pre
  induction pre with
  | nil => intro l n _; simp
  | cons c pre' ih =>
    intro l n hp
    have hpc : (p == c) = false :=
      beq_eq_false_iff_ne.mpr (fun h => hp (h ▸ List.mem_cons_self c pre'))
    have hlen : (c :: pre').length + n = (pre'.length + n) + 1 := by
      simp [Nat.add_comm, Nat.add_assoc, Nat.add_left_comm]
    rw [hlen, List.cons_append]
    have hstep :
        replaceAllFuel p ps rep ((pre'.length + n) + 1) (c :: (pre' ++ l))
          = c :: replaceAllFuel p ps rep (pre'.length + n) (pre' ++ l) := by
      simp [replaceAllFuel, List.isPrefixOf, hpc]
    rw [hstep, ih l n (fun h => hp (List.mem_cons_of_mem c h)), List.cons_append]

/-- Replacement at an occurrence of the pattern substitutes the replacement
text without rescanning it. -/
theorem replaceAllFuel_pattern_head (p : Char) (ps rep l : List Char) (fuel : Nat) :
    replaceAllFuel p ps rep (fuel + 1) (p :: (ps ++ l))
      = rep ++ replaceAllFuel p ps rep fuel l := by
  have hpref : (p :: ps).isPrefixOf (p :: (ps ++ l)) = true :=
    isPrefixOf_append_self (p :: ps) l
  simp [replaceAllFuel, hpref, List.drop_left]

/-- Replacing the pattern sitting exactly at the end of a string whose
prefix never mentions the pattern's head character yields the prefix
followed by the replacement. -/
theorem replaceAllFuel_exact_suffix (p : Char) (ps rep pre : List Char) (hp : p ∉ pre) :
    replaceAllFuel p ps rep (pre ++ (p :: ps)).length (pre ++ (p :: ps)) = pre ++ rep := by
  have hlen : (pre ++ (p :: ps)).length = pre.length + (ps.length + 1) := by
    simp [List.length_append]
  rw [hlen, replaceAllFuel_not_head p ps rep pre (p :: ps) (ps.length + 1) hp]
  have h2 : replaceAllFuel p ps rep (ps.length + 1) (p :: ps) = rep := by
    have hph := replaceAllFuel_pattern_head p ps rep [] ps.length
    rw [List.append_nil] at hph
    rw [hph]
    simp [replaceAllFuel]
  rw [h2]

/-- Substituting `{rom}` at the end of a template whose prefix contains no
opening brace splices in the replacement verbatim. -/
theorem replaceAll_rom_at_end (pre q : String) (hp : '{' ∉ pre.data) :
    replaceAll (pre ++ "{rom}") "{rom}" q = pre ++ q := by
  obtain ⟨predata⟩ := pre
  obtain ⟨qdata⟩ := q
  have key := replaceAllFuel_exact_suffix '{' ['r', 'o', 'm', '}'] qdata predata hp
  exact congrArg String.mk key

/-- Printable ASCII characters other than the double quote and the
backslash are kept verbatim by `%q` escaping. -/
theorem goQuoteChar_printable (c : Char) (h1 : 32 ≤ c.toNat) (h2 : c.toNat < 127)
    (hq : c ≠ '"') (hb : c ≠ '\\') : goQuoteChar c = [c] := by
  have e1 : (c == '"') = false := beq_eq_false_iff_ne.mpr hq
  have e2 : (c == '\\') = false := beq_eq_false_iff_ne.mpr hb
  have n7 : (c.toNat == 7) = false := by simp; omega
  have n8 : (c.toNat == 8) = false := by simp; omega
  have n12 : (c.toNat == 12) = false := by simp; omega
  have n10 : (c.toNat == 10) = false := by simp; omega
  have n13 : (c.toNat == 13) = false := by simp; omega
  have n9 : (c.toNat == 9) = false := by simp; omega
  have n11 : (c.toNat == 11) = false := by simp; omega
  simp [goQuoteChar, e1, e2, n7, n8, n12, n10, n13, n9, n11, h1, h2]

/-- Escaping is the identity on strings of printable ASCII characters
without double quotes and backslashes. -/
theorem flatMap_goQuoteChar_id (s : List Char)
    (h : ∀ c ∈ s, 32 ≤ c.toNat ∧ c.toNat < 127 ∧ c ≠ '"' ∧ c ≠ '\\') :
    s.flatMap goQuoteChar = s := by
  induction s with
  | nil => rfl
  | cons c cs ih =>
    obtain ⟨h1, h2, hq, hb⟩ := h c (List.mem_cons_self c cs)
    simp [goQuoteChar_printable c h1 h2 hq hb,
      ih (fun c' hc' => h c' (List.mem_cons_of_mem c hc'))]

/-- On a safe path, `%q` just wraps the path in double quotes. -/
theorem goQuote_safe (s : String)
    (h : ∀ c ∈ s.data, 32 ≤ c.toNat ∧ c.toNat < 127 ∧ c ≠ '"' ∧ c ≠ '\\') :
    goQuote s = String.mk ('"' :: s.data ++ ['"']) := by
  unfold goQuote
  rw [flatMap_goQuoteChar_id s.data h]

/-- The tokenizer accumulates an unquoted word (no quotes, no spaces) into
the current argument. -/
theorem parseCmdAux_word (w : List Char) (hw : ∀ c ∈ w, c ≠ '"' ∧ c ≠ '\'' ∧ c ≠ ' ') :
    ∀ (l : List Char) (args : List String) (cur : List Char) (qc : Char),
      parseCmdAux (w ++ l) args cur false qc = parseCmdAux l args (cur ++ w) false qc := by
  induction w with
  | nil => intro l args cur qc; simp
  | cons c w' ih =>
    intro l args cur qc
    obtain ⟨hq, hs, hsp⟩ := hw c (List.mem_cons_self c w')
    have e1 : (c == '"') = false := beq_eq_false_iff_ne.mpr hq
    have e2 : (c == '\'') = false := beq_eq_false_iff_ne.mpr hs
    have e3 : (c == ' ') = false := beq_eq_false_iff_ne.mpr hsp
    have ih' := ih (fun c' hc' => hw c' (List.mem_cons_of_mem c hc')) l args (cur ++ [c]) qc
    rw [List.cons_append]
    have hstep : parseCmdAux (c :: (w' ++ l)) args cur false qc
        = parseCmdAux (w' ++ l) args (cur ++ [c]) false qc := by
      simp [parseCmdAux, e1, e2, e3]
    rw [hstep, ih']
    simp

/-- Inside a double-quoted span, every character other than a double quote
(single quotes and spaces included) is accumulated literally. -/
theorem parseCmdAux_inquote (s : List Char) (hs : ∀ c ∈ s, c ≠ '"') :
    ∀ (l : List Char) (args : List String) (cur : List Char),
      parseCmdAux (s ++ l) args cur true '"' = parseCmdAux l args (cur ++ s) true '"' := by
  induction s with
  | nil => intro l args cur; simp
  | cons c s' ih =>
    intro l args cur
    have hq : c ≠ '"' := hs c (List.mem_cons_self c s')
    have e1 : (c == '"') = false := beq_eq_false_iff_ne.mpr hq
    have ih' := ih (fun c' hc' => hs c' (List.mem_cons_of_mem c hc')) l args (cur ++ [c])
    rw [List.cons_append]
    have hstep : parseCmdAux (c :: (s' ++ l)) args cur true '"'
        = parseCmdAux (s' ++ l) args (cur ++ [c]) true '"' := by
      by_cases hc : (c == '\'') = true
      · simp [parseCmdAux, e1, hc]
      · have e2 : (c == '\'') = false := by
          revert hc
          cases c == '\'' <;> simp
        simp [parseCmdAux, e1, e2]
    rw [hstep, ih']
    simp

/-- A non-empty unquoted word followed by a space is flushed as one
token. -/
theorem parseCmdAux_token (w : List Char) (hw : ∀ c ∈ w, c ≠ '"' ∧ c ≠ '\'' ∧ c ≠ ' ')
    (hne : w ≠ []) (l : List Char) (args : List String) (qc : Char) :
    parseCmdAux (w ++ (' ' :: l)) args [] false qc
      = parseCmdAux l (args ++ [String.mk w]) [] false qc := by
  rw [parseCmdAux_word w hw (' ' :: l) args [] qc, List.nil_append]
  have hlen : w.length > 0 := List.length_pos.mpr hne
  simp [parseCmdAux, hlen]

/-- An unquoted double quote opens a double-quoted span. -/
theorem parseCmdAux_open_dquote (l : List Char) (args : List String) (cur : List Char)
    (qc : Char) :
    parseCmdAux ('"' :: l) args cur false qc = parseCmdAux l args cur true '"' := by
  simp [parseCmdAux]

/-- A double quote matching the opening quote closes the span without being
added to the token. -/
theorem parseCmdAux_close_dquote (l : List Char) (args : List String) (cur : List Char) :
    parseCmdAux ('"' :: l) args cur true '"' = parseCmdAux l args cur false (Char.ofNat 0) := by
  simp [parseCmdAux]

/-! ## Command builder claims (C7) -/

/-- The emulator configuration carrying the round-trip template from the
specification, with RetroArch's flatpak id. -/
def emuTemplate : Emulator :=
  { id := "retroarch", name := "retroarch", displayName := "RetroArch",
    type_ := EmulatorType.flatpak, executablePath := "",
    flatpakID := "org.libretro.RetroArch",
    commandTemplate := "run {flatpak_id} -L {core_lib_path} {args} {rom}",
    defaultArgs := "--fullscreen", supportedPlatforms := [], isAvailable := true }

/-- C7 as stated is false: a ROM path containing a space and a double quote
is `%q`-escaped with a backslash the tokenizer does not understand, so the
path does not come back as a single token (here the argv ends in the two
tokens `a\` and `b`). -/
theorem buildCommand_roundtrip_counterexample :
    containsSpace "a\" b" = true
    ∧ buildFlatpakCommand emuTemplate "/cores/mesen_libretro.so" "a\" b" "--fullscreen"
        = ["run", "org.libretro.RetroArch", "-L", "/cores/mesen_libretro.so",
           "--fullscreen", "a\\", "b"]
    ∧ List.count "a\" b"
        (buildFlatpakCommand emuTemplate "/cores/mesen_libretro.so" "a\" b" "--fullscreen")
      ≠ 1 := by
  decide

set_option maxHeartbeats 1600000 in
/-- C7 (amended): for every ROM path that contains a space and consists of
printable ASCII characters other than the double quote and the backslash,
building a command from the round-trip template yields an argv in which the
ROM path appears as exactly one token equal to the original path, quotes
stripped. -/
theorem buildCommand_roundtrip_safe_paths (romPath : String)
    (hsp : ' ' ∈ romPath.data)
    (hsafe : ∀ c ∈ romPath.data, 32 ≤ c.toNat ∧ c.toNat < 127 ∧ c ≠ '"' ∧ c ≠ '\\') :
    buildFlatpakCommand emuTemplate "/cores/mesen_libretro.so" romPath "--fullscreen"
      = ["run", "org.libretro.RetroArch", "-L", "/cores/mesen_libretro.so",
         "--fullscreen", romPath]
    ∧ List.count romPath
        (buildFlatpakCommand emuTemplate "/cores/mesen_libretro.so" romPath "--fullscreen")
      = 1 := by
  have hcontains : containsSpace romPath = true := by
    unfold containsSpace
    exact contains_of_mem romPath.data ' ' hsp
  have hquoted : quotePathIfNeeded romPath = String.mk ('"' :: romPath.data ++ ['"']) := by
    unfold quotePathIfNeeded
    rw [hcontains]
    simp [goQuote_safe romPath hsafe]
  have hsub3 :
      replaceAll
        (replaceAll
          (replaceAll emuTemplate.commandTemplate "{flatpak_id}" emuTemplate.flatpakID)
          "{core_lib_path}" (quotePathIfNeeded "/cores/mesen_libretro.so"))
        "{args}" "--fullscreen"
      = "run org.libretro.RetroArch -L /cores/mesen_libretro.so --fullscreen {rom}" := by
    decide
  have hsplit :
      ("run org.libretro.RetroArch -L /cores/mesen_libretro.so --fullscreen {rom}" : String)
        = "run org.libretro.RetroArch -L /cores/mesen_libretro.so --fullscreen " ++ "{rom}" :=
    rfl
  have hs4 :
      replaceAll
        "run org.libretro.RetroArch -L /cores/mesen_libretro.so --fullscreen {rom}"
        "{rom}" (quotePathIfNeeded romPath)
      = "run org.libretro.RetroArch -L /cores/mesen_libretro.so --fullscreen "
          ++ quotePathIfNeeded romPath := by
    rw [hsplit]
    exact replaceAll_rom_at_end
      "run org.libretro.RetroArch -L /cores/mesen_libretro.so --fullscreen "
      (quotePathIfNeeded romPath) (by decide)
  have hbuild :
      buildFlatpakCommand emuTemplate "/cores/mesen_libretro.so" romPath "--fullscreen"
        = parseCommandWithQuotes
            ("run org.libretro.RetroArch -L /cores/mesen_libretro.so --fullscreen "
              ++ quotePathIfNeeded romPath) := by
    simp only [buildFlatpakCommand]
    rw [hsub3, hs4]
  have hnil : romPath.data ≠ [] := List.ne_nil_of_mem hsp
  have hlen : 0 < romPath.data.length := List.length_pos.mpr hnil
  have hnq : ∀ c ∈ romPath.data, c ≠ '"' := fun c hc => (hsafe c hc).2.2.1
  have hparse :
      parseCommandWithQuotes
          ("run org.libretro.RetroArch -L /cores/mesen_libretro.so --fullscreen "
            ++ quotePathIfNeeded romPath)
        = ["run", "org.libretro.RetroArch", "-L", "/cores/mesen_libretro.so",
           "--fullscreen", romPath] := by
    rw [hquoted]
    unfold parseCommandWithQuotes
    rw [String.data_append]
    have hlist :
        ("run org.libretro.RetroArch -L /cores/mesen_libretro.so --fullscreen " : String).data
            ++ (String.mk ('"' :: romPath.data ++ ['"'])).data
          = "run".data ++ (' ' :: ("org.libretro.RetroArch".data ++ (' ' :: ("-L".data
              ++ (' ' :: ("/cores/mesen_libretro.so".data ++ (' ' :: ("--fullscreen".data
              ++ (' ' :: ('"' :: (romPath.data ++ ['"']))))))))))) := rfl
    rw [hlist]
    rw [parseCmdAux_token "run".data (by decide) (by decide)]
    rw [parseCmdAux_token "org.libretro.RetroArch".data (by decide) (by decide)]
    rw [parseCmdAux_token "-L".data (by decide) (by decide)]
    rw [parseCmdAux_token "/cores/mesen_libretro.so".data (by decide) (by decide)]
    rw [parseCmdAux_token "--fullscreen".data (by decide) (by decide)]
    rw [parseCmdAux_open_dquote]
    rw [parseCmdAux_inquote romPath.data hnq ['"']]
    rw [List.nil_append, parseCmdAux_close_dquote]
    simp [parseCmdAux, hlen]
    have hlenS : romPath.length = romPath.data.length := rfl
    omega
  rw [hbuild, hparse]
  refine ⟨rfl, ?_⟩
  have hne : ∀ w : String, ' ' ∉ w.data → romPath ≠ w := by
    intro w hw heq
    exact hw (heq ▸ hsp)
  have h1 := hne "run" (by decide)
  have h2 := hne "org.libretro.RetroArch" (by decide)
  have h3 := hne "-L" (by decide)
  have h4 := hne "/cores/mesen_libretro.so" (by decide)
  have h5 := hne "--fullscreen" (by decide)
  simp [List.count_cons, h1, h2, h3, h4, h5]

/-- Witness for the amended C7 on a path with one space: the path comes
back as the single final token. -/
theorem buildCommand_roundtrip_safe_paths_witness :
    buildFlatpakCommand emuTemplate "/cores/mesen_libretro.so" "/roms/super mario.nes"
        "--fullscreen"
      = ["run", "org.libretro.RetroArch", "-L", "/cores/mesen_libretro.so",
         "--fullscreen", "/roms/super mario.nes"]
    ∧ List.count "/roms/super mario.nes"
        (buildFlatpakCommand emuTemplate "/cores/mesen_libretro.so" "/roms/super mario.nes"
          "--fullscreen")
      = 1 :=
  buildCommand_roundtrip_safe_paths "/roms/super mario.nes" (by decide) (by decide)

/-! ## Emulator resolution claims -/

/-- C1: an instance override referencing an emulator that is missing or
unavailable, or a core that is unavailable, does not fail the resolution:
with an available platform default configured, `ResolveEmulator` falls
through and returns that default pair without error. -/
theorem resolveEmulator_unavailable_override_falls_back (db : DB) (inst : GameInstance)
    (settings : InstanceEmulatorSettings) (pair : Emulator × Option EmulatorCore)
    (hov : getInstanceEmulatorSettings db inst.id = some settings)
    (hun : getEmulator db settings.emulatorID = none
      ∨ (∃ emu, getEmulator db settings.emulatorID = some emu ∧ emu.isAvailable = false)
      ∨ (settings.coreID ≠ ""
          ∧ ∃ emu c, getEmulator db settings.emulatorID = some emu
            ∧ getCore db settings.emulatorID settings.coreID = some c
            ∧ c.isAvailable = false))
    (hdef : getDefaultEmulatorForPlatform db inst.platform true = some pair) :
    ResolveEmulator db inst = Except.ok pair := by
  rcases hun with h | ⟨emu, hemu, hav⟩ | ⟨hcore, emu, c, hemu, hc, hcav⟩
  · simp [ResolveEmulator, hov, hdef, getEmulatorAndCore, h]
  · simp [ResolveEmulator, hov, hdef, getEmulatorAndCore, hemu, hav]
  · simp [ResolveEmulator, hov, hdef, getEmulatorAndCore, hemu, hc, hcav, hcore]

/-- C3: with no override in effect and no available platform default, the
first available (emulator, optional core) pair in the configured priority
order is returned, not an error. -/
theorem resolveEmulator_fallback_first_available (db : DB) (inst : GameInstance)
    (pair : Emulator × Option EmulatorCore) (rest : List (Emulator × Option EmulatorCore))
    (hov : getInstanceEmulatorSettings db inst.id = none)
    (hdef : getDefaultEmulatorForPlatform db inst.platform true = none)
    (havail : getAvailableEmulatorsForPlatform db inst.platform = pair :: rest) :
    ResolveEmulator db inst = Except.ok pair := by
  simp [ResolveEmulator, hov, hdef, havail]

/-- C4: when the override stage falls through and neither an available
default nor any available fallback pair exists for the platform,
`ResolveEmulator` fails with the error naming that platform. -/
theorem resolveEmulator_no_available_error (db : DB) (inst : GameInstance)
    (hov : overrideFallsThrough db inst.id)
    (hdef : getDefaultEmulatorForPlatform db inst.platform true = none)
    (havail : getAvailableEmulatorsForPlatform db inst.platform = []) :
    ResolveEmulator db inst
      = Except.error ("no available emulator for platform " ++ inst.platform) := by
  unfold ResolveEmulator
  cases hset : getInstanceEmulatorSettings db inst.id with
  | none => simp [hdef, havail]
  | some settings =>
    have hov' : overrideUsable db settings = false := by
      unfold overrideFallsThrough at hov
      rw [hset] at hov
      exact hov
    unfold overrideUsable at hov'
    cases hec : getEmulatorAndCore db settings.emulatorID settings.coreID with
    | error e => simp [hec, hdef, havail]
    | ok pr =>
      rw [hec] at hov'
      obtain ⟨emu, core⟩ := pr
      simp only at hov'
      simp [hec, hov', hdef, havail]

/-- Nestopia, seeded but not installed — an unavailable override target. -/
def nestopiaUnavail : Emulator :=
  { id := "nestopia", name := "nestopia", displayName := "Nestopia UE",
    type_ := EmulatorType.flatpak, executablePath := "",
    flatpakID := "ca._0ldsk00l.Nestopia",
    commandTemplate := "flatpak run {flatpak_id} {args} {rom}",
    defaultArgs := "--fullscreen", supportedPlatforms := ["nes"],
    isAvailable := false }

/-- Dolphin, installed — an available platform default. -/
def dolphinAvail : Emulator :=
  { id := "dolphin", name := "dolphin", displayName := "Dolphin",
    type_ := EmulatorType.flatpak, executablePath := "",
    flatpakID := "org.DolphinEmu.dolphin-emu",
    commandTemplate := "flatpak run {flatpak_id} {args} {rom}",
    defaultArgs := "-b -e", supportedPlatforms := ["wii", "gamecube"],
    isAvailable := true }

/-- RetroArch, seeded but not installed — renders the default mapping
unavailable. -/
def retroarchUnavail : Emulator :=
  { id := "retroarch", name := "retroarch", displayName := "RetroArch",
    type_ := EmulatorType.flatpak, executablePath := "",
    flatpakID := "org.libretro.RetroArch",
    commandTemplate := "flatpak run {flatpak_id} -L {core_lib_path} {args} {rom}",
    defaultArgs := "--fullscreen", supportedPlatforms := [],
    isAvailable := false }

/-- Nestopia, installed — an available non-default fallback. -/
def nestopiaAvail : Emulator :=
  { nestopiaUnavail with isAvailable := true }

/-- Database for the C1 witness: the instance override points at the
unavailable Nestopia while Dolphin is the available default for wii. -/
def dbOverride : DB :=
  { emulators := [nestopiaUnavail, dolphinAvail]
    cores := []
    platformEmulators :=
      [{ id := "wii_dolphin", platform := "wii", emulatorID := "dolphin",
         coreID := "", isDefault := true, priority := 0 }]
    instanceSettings :=
      [{ instanceID := "inst1", emulatorID := "nestopia", coreID := "",
         customArgs := "" }] }

/-- Game instance on wii with the stale override. -/
def instWii : GameInstance :=
  { id := "inst1", gameID := "g1", source := "emulated", platform := "wii",
    installPath := "" }

/-- Witness for C1: the stale Nestopia override falls through and the
available Dolphin default is returned. -/
theorem resolveEmulator_unavailable_override_falls_back_witness :
    ResolveEmulator dbOverride instWii = Except.ok (dolphinAvail, none) :=
  resolveEmulator_unavailable_override_falls_back dbOverride instWii
    { instanceID := "inst1", emulatorID := "nestopia", coreID := "", customArgs := "" }
    (dolphinAvail, none)
    (by decide)
    (Or.inr (Or.inl ⟨nestopiaUnavail, by decide, by decide⟩))
    (by decide)

/-- Database for the C3 witness: the nes default is the unavailable
RetroArch/Mesen pair; the available standalone Nestopia is a lower-priority
fallback; no instance override exists. -/
def dbFallback : DB :=
  { emulators := [retroarchUnavail, nestopiaAvail]
    cores :=
      [{ id := "retroarch_mesen", emulatorID := "retroarch",
         coreID := "mesen_libretro", displayName := "Mesen",
         supportedPlatforms := ["nes"], isAvailable := true }]
    platformEmulators :=
      [{ id := "nes_retroarch_mesen", platform := "nes", emulatorID := "retroarch",
         coreID := "mesen_libretro", isDefault := true, priority := 0 },
       { id := "nes_nestopia_standalone", platform := "nes", emulatorID := "nestopia",
         coreID := "", isDefault := false, priority := 2 }]
    instanceSettings := [] }

/-- Game instance on nes with no override. -/
def instNes : GameInstance :=
  { id := "inst2", gameID := "g2", source := "emulated", platform := "nes",
    installPath := "" }

/-- Witness for C3: the unavailable default is skipped and the available
standalone Nestopia fallback is returned. -/
theorem resolveEmulator_fallback_first_available_witness :
    ResolveEmulator dbFallback instNes = Except.ok (nestopiaAvail, none) :=
  resolveEmulator_fallback_first_available dbFallback instNes
    (nestopiaAvail, none) []
    (by decide) (by decide) (by decide)

/-- Database with nothing configured for any platform. -/
def dbEmpty : DB :=
  { emulators := [], cores := [], platformEmulators := [], instanceSettings := [] }

/-- Game instance on a platform with no emulator at all. -/
def instPsx : GameInstance :=
  { id := "inst3", gameID := "g3", source := "emulated", platform := "psx",
    installPath := "" }

/-- Witness for C4: with no pair available at any stage, resolution fails
with the error naming the platform. -/
theorem resolveEmulator_no_available_error_witness :
    ResolveEmulator dbEmpty instPsx
      = Except.error ("no available emulator for platform " ++ instPsx.platform) :=
  resolveEmulator_no_available_error dbEmpty instPsx
    (by unfold overrideFallsThrough; simp [getInstanceEmulatorSettings, dbEmpty])
    (by decide) (by decide)

/-! ## Resolver chain claim -/

/-- The resolver loop from any checkpoint index: when every earlier
supporting resolver fails and `r` supports the request and succeeds, the
chain resolves with `r`'s metadata and name, and the resolvers whose
`Resolve` was invoked are exactly the supporting prefix followed by `r` —
in particular none registered after `r`. -/
theorem runChainAux_first_success (cancelBefore : Nat → Bool) (req : FetchRequest)
    (pre post : List ResolverM) (r : ResolverM) (m : ResolvedMetadata)
    (hnc : ∀ n, cancelBefore n = false)
    (hpre : ∀ r' ∈ pre, r'.supports req.source req.platform = true →
      ∃ e, r'.resolve req = Except.error e)
    (hsup : r.supports req.source req.platform = true)
    (hok : r.resolve req = Except.ok m) :
    ∀ k, runChainAux cancelBefore req k (pre ++ r :: post)
      = (FetchOutcome.resolved m r.name,
         pre.filter (fun r' => r'.supports req.source req.platform) ++ [r]) := by
  induction pre with
  | nil =>
    intro k
    simp [runChainAux, hnc, hsup, hok]
  | cons r0 pre' ih =>
    intro k
    have ih' := ih (fun r' hr' => hpre r' (List.mem_cons_of_mem r0 hr')) (k + 1)
    simp only [List.cons_append, runChainAux, hnc k, Bool.false_eq_true, if_false]
    cases hs : r0.supports req.source req.platform with
    | false =>
      simp [hs, ih']
    | true =>
      obtain ⟨e, he⟩ := hpre r0 (List.mem_cons_self r0 pre') hs
      simp [hs, he, ih']

/-- C2: if, absent cancellation, some resolver is the first in registration
order to support the request and succeed, the chain ends resolved with that
resolver's result, the on-resolve callback is fired with it, and `Resolve`
is invoked on no resolver registered after it (the invoked list is exactly
the supporting earlier resolvers and the winner). -/
theorem resolverChain_first_success_short_circuits (cancelBefore : Nat → Bool)
    (req : FetchRequest) (pre post : List ResolverM) (r : ResolverM)
    (m : ResolvedMetadata)
    (hnc : ∀ n, cancelBefore n = false)
    (hpre : ∀ r' ∈ pre, r'.supports req.source req.platform = true →
      ∃ e, r'.resolve req = Except.error e)
    (hsup : r.supports req.source req.platform = true)
    (hok : r.resolve req = Except.ok m) :
    runChainAux cancelBefore req 0 (pre ++ r :: post)
      = (FetchOutcome.resolved m r.name,
         pre.filter (fun r' => r'.supports req.source req.platform) ++ [r])
    ∧ deliveredCallback true (runChainAux cancelBefore req 0 (pre ++ r :: post)).1 req
      = some (req, m, r.name) := by
  have h := runChainAux_first_success cancelBefore req pre post r m hnc hpre hsup hok 0
  exact ⟨h, by rw [h]; rfl⟩

/-- Witness for C2: with a failing resolver first, a succeeding one second
and a third registered after it, the chain resolves with the second and
invokes only the first two. -/
theorem resolverChain_first_success_short_circuits_witness :
    runChainAux (fun _ => false) req0 0 ([rErr] ++ rOk :: [rNever])
      = (FetchOutcome.resolved meta0 rOk.name,
         [rErr].filter (fun r' => r'.supports req0.source req0.platform) ++ [rOk])
    ∧ deliveredCallback true
        (runChainAux (fun _ => false) req0 0 ([rErr] ++ rOk :: [rNever])).1 req0
      = some (req0, meta0, rOk.name) :=
  resolverChain_first_success_short_circuits (fun _ => false) req0 [rErr] [rNever] rOk meta0
    (fun _ => rfl)
    (fun r' hr' => by
      simp only [List.mem_singleton] at hr'
      subst hr'
      intro _
      exact ⟨"http 500", rfl⟩)
    rfl rfl

/-! ## Tokenizer claims -/

/-- Every token the tokenizer loop emits is non-empty: a flush only happens
with a non-empty current argument. -/
theorem parseCmdAux_tokens_nonempty :
    ∀ (l : List Char) (args : List String) (cur : List Char) (inQuote : Bool) (qc : Char),
      (∀ t ∈ args, t ≠ "") → ∀ t ∈ parseCmdAux l args cur inQuote qc, t ≠ "" := by
  intro l
  induction l with
  | nil =>
    intro args cur inQuote qc hargs t ht
    simp only [parseCmdAux] at ht
    by_cases hc : cur.length > 0
    · rw [if_pos hc] at ht
      rcases List.mem_append.mp ht with h | h
      · exact hargs t h
      · have ht' : t = String.mk cur := List.mem_singleton.mp h
        subst ht'
        intro habs
        have : cur = [] := congrArg String.data habs
        rw [this] at hc
        exact absurd hc (by simp)
    · rw [if_neg hc] at ht
      exact hargs t ht
  | cons c rest ih =>
    intro args cur inQuote qc hargs t ht
    simp only [parseCmdAux] at ht
    by_cases h1 : (c == '"' || c == '\'') = true
    · rw [if_pos h1] at ht
      by_cases h2 : !inQuote
      · rw [if_pos h2] at ht
        exact ih args cur true c hargs t ht
      · rw [if_neg h2] at ht
        by_cases h3 : (c == qc) = true
        · rw [if_pos h3] at ht
          exact ih args cur false (Char.ofNat 0) hargs t ht
        · rw [if_neg h3] at ht
          exact ih args (cur ++ [c]) inQuote qc hargs t ht
    · rw [if_neg h1] at ht
      by_cases h2 : (c == ' ' && !inQuote) = true
      · rw [if_pos h2] at ht
        by_cases h3 : cur.length > 0
        · rw [if_pos h3] at ht
          refine ih (args ++ [String.mk cur]) [] inQuote qc ?_ t ht
          intro t' ht'
          rcases List.mem_append.mp ht' with h | h
          · exact hargs t' h
          · have ht'' : t' = String.mk cur := List.mem_singleton.mp h
            subst ht''
            intro habs
            have : cur = [] := congrArg String.data habs
            rw [this] at h3
            exact absurd h3 (by simp)
        · rw [if_neg h3] at ht
          exact ih args [] inQuote qc hargs t ht
      · rw [if_neg h2] at ht
        exact ih args (cur ++ [c]) inQuote qc hargs t ht

/-- C10: every token produced by `parseCommandWithQuotes` is non-empty —
runs of unquoted spaces and empty quoted spans contribute no token, so an
empty placeholder substitution never injects an empty argv entry. -/
theorem parseCommand_tokens_nonempty (cmd : String) :
    ∀ t ∈ parseCommandWithQuotes cmd, t ≠ "" :=
  parseCmdAux_tokens_nonempty cmd.data [] [] false (Char.ofNat 0) (by simp)

/-- Witness for C10 on a command with a doubled space and an empty quoted
span: the first produced token is non-empty. -/
theorem parseCommand_tokens_nonempty_witness :
    "ab" ∈ parseCommandWithQuotes "ab  \x22\x22 cd" ∧ "ab" ≠ "" :=
  ⟨by decide, parseCommand_tokens_nonempty "ab  \x22\x22 cd" "ab" (by decide)⟩

/-! ## Monitor claim -/

/-- C9: on the trace with nine seconds of detection followed by eleven
seconds without detection, the activity monitor emits exactly one running
event, at the first detection (second 1), and exactly one stopped event,
once more than ten seconds have passed without detection (second 20, eleven
seconds after the last detection at second 9), and then returns. -/
theorem monitor_debounce_trace :
    monitorGameProcess (List.replicate 9 (some true) ++ List.replicate 11 (some false))
      = [(1, MonitorEvent.running), (20, MonitorEvent.stopped)] := by
  decide

end Gentro
